import Mathlib

set_option maxRecDepth 8192

/-!
# Verification of the chatbot's markdown formatter and transcript model

Shallow embedding of `LLMHelper.format_markdown_to_html`,
`LLMHelper.format_chat_message`, `LLMHelper.build_chat_history_html`,
`LLMHelper.set_model` (src/llm_helper.py) and of the transcript operations
`_add_to_chat`, `clear_chat_history`, `get_chat_history` (src/main.py),
with `get_welcome_message` (src/styles.py).

Text is modelled as `List Char`; Python strings are mirrored by Lean
`String` via `String.data`.
-/

/-- Python `str.strip()` whitespace test, restricted to the ASCII
whitespace characters (space, tab, newline, carriage return, vertical
tab, form feed). -/
def isSpc (c : Char) : Bool :=
  c = ' ' || c = '\t' || c = '\n' || c = '\r' || c = '\x0b' || c = '\x0c'

/-- Python `str.strip()`: drop leading and trailing whitespace. -/
def stripL (l : List Char) : List Char :=
  ((l.dropWhile isSpc).reverse.dropWhile isSpc).reverse

/-- `String.strip` on Lean strings, mirroring Python `message.strip()`. -/
def stripS (s : String) : String :=
  ⟨stripL s.data⟩

/-- Python `str.startswith`, on character lists. -/
def startsWith2 (p l : List Char) : Bool :=
  l.take p.length == p

/-- The non-greedy search performed by the regex `\*\*(.*?)\*\*` once an
opening `**` has been consumed: find the nearest closing `**` with no
newline before it, returning the span content and the remainder after
the closing `**`. -/
def findClose : List Char → Option (List Char × List Char)
  | a :: b :: rest =>
    if a = '*' ∧ b = '*' then some ([], rest)
    else if a = '\n' then none
    else (findClose (b :: rest)).map (fun p => (a :: p.1, p.2))
  | _ => none

theorem findClose_length {l : List Char} :
    ∀ {cont rem : List Char}, findClose l = some (cont, rem) →
      cont.length + rem.length + 2 = l.length := by
  induction l with
  | nil => intro cont rem h; simp [findClose] at h
  | cons a t ih =>
    intro cont rem h
    match t with
    | [] => simp [findClose] at h
    | b :: rest =>
      rw [findClose] at h
      split at h
      · simp at h
        obtain ⟨h1, h2⟩ := h
        subst h1; subst h2
        simp
      · split at h
        · simp at h
        · rcases ho : findClose (b :: rest) with _ | ⟨c0, r0⟩
          · rw [ho] at h; simp at h
          · rw [ho] at h
            simp at h
            obtain ⟨h1, h2⟩ := h
            subst h1; subst h2
            have := ih ho
            simp at this ⊢
            omega

/-- The pass `re.sub(r'\*\*(.*?)\*\*', r'<b>\1</b>', text)`: scan left to
right; at each `**` look for the nearest closing `**` (no newline in
between, since `.` does not match a newline); on success wrap the span
content in `<b>`/`</b>` and continue after the closing `**`. -/
def boldSub : List Char → List Char
  | [] => []
  | [c] => [c]
  | a :: b :: rest =>
    if a = '*' ∧ b = '*' then
      match h : findClose rest with
      | some (cont, rem) =>
        "<b>".data ++ cont ++ "</b>".data ++ boldSub rem
      | none => a :: b :: boldSub rest
    else a :: boldSub (b :: rest)
termination_by l => l.length
decreasing_by
  · have := findClose_length h
    simp at this ⊢
    omega
  · simp; omega
  · simp

/-- `re.sub(r'^P (.*?)$', wrap(\1), text, flags=re.MULTILINE)` for a
line-anchored header pattern `P`: since `^`/`$` anchor whole lines under
MULTILINE and `.` does not cross newlines, the substitution rewrites
exactly the lines starting with the header marker. -/
def headerSub (mark : List Char) (wrap : List Char → List Char)
    (t : List Char) : List Char :=
  List.intercalate ['\n']
    ((t.splitOn '\n').map
      (fun l => if startsWith2 mark l then wrap (l.drop mark.length) else l))

def h3Wrap (c : List Char) : List Char :=
  "<h3 style=\"color: #2c5aa0; margin: 16px 0 8px 0; font-size: 14pt; font-weight: bold;\">".data
    ++ c ++ "</h3>".data

def h2Wrap (c : List Char) : List Char :=
  "<h2 style=\"color: #1e4176; margin: 18px 0 10px 0; font-size: 16pt; font-weight: bold;\">".data
    ++ c ++ "</h2>".data

def h1Wrap (c : List Char) : List Char :=
  "<h1 style=\"color: #1a365d; margin: 20px 0 12px 0; font-size: 18pt; font-weight: bold;\">".data
    ++ c ++ "</h1>".data

def ulOpenL : List Char := "<ul style=\"margin: 8px 0; padding-left: 20px;\">".data

def ulCloseL : List Char := "</ul>".data

def liWrap (c : List Char) : List Char :=
  "<li style=\"margin: 4px 0; line-height: 1.4;\">".data ++ c ++ "</li>".data

def pWrap (l : List Char) : List Char :=
  "<p style=\"margin: 8px 0; line-height: 1.5;\">".data ++ l ++ "</p>".data

/-- The `for line in lines` loop of `format_markdown_to_html`, carrying
the `in_list` flag: a line whose stripped form starts with `"- "` opens
a list if none is open and becomes a list item from the stripped text
after the 2-character marker; any other line closes an open list and, if
its stripped form is non-empty, is wrapped as a paragraph around the
original (unstripped) line; a list still open after the last line is
closed. -/
def listScan : List (List Char) → Bool → List (List Char)
  | [], inList => if inList then [ulCloseL] else []
  | line :: rest, inList =>
    let s := stripL line
    if startsWith2 "- ".data s then
      (if inList then [] else [ulOpenL]) ++ liWrap (s.drop 2) :: listScan rest true
    else
      (if inList then [ulCloseL] else [])
        ++ (if s.isEmpty then [] else [pWrap line])
        ++ listScan rest false

/-- The line list accumulated by `format_markdown_to_html` just before the
final `'\n'.join`: bold substitution, then the three header passes, then
the list scan over the lines of the result. -/
def formattedLines (t : List Char) : List (List Char) :=
  listScan
    ((headerSub "# ".data h1Wrap
      (headerSub "## ".data h2Wrap
        (headerSub "### ".data h3Wrap (boldSub t)))).splitOn '\n')
    false

/-- `LLMHelper.format_markdown_to_html` on character lists. -/
def mdFormatL (t : List Char) : List Char :=
  List.intercalate ['\n'] (formattedLines t)

/-- `LLMHelper.format_markdown_to_html` (src/llm_helper.py). -/
def formatMarkdownToHtml (s : String) : String :=
  ⟨mdFormatL s.data⟩

/-- `l` contains two adjacent `'*'` characters (so a `**` token). -/
def hasSS : List Char → Bool
  | a :: b :: rest => (a = '*' && b = '*') || hasSS (b :: rest)
  | _ => false

/-- Fixed part of the user chat template before the sender name. -/
def userMsgPre : String :=
  "\n            <div style=\"margin: 16px 0; padding: 12px 16px; background: #e6fffa; border-left: 4px solid #38b2ac; border-radius: 8px;\">\n                <div style=\"font-weight: bold; color: #2c7a7b; margin-bottom: 6px;\">👤 "

/-- Fixed part of the user chat template between sender and message. -/
def userMsgMid : String :=
  ":</div>\n                <div style=\"color: #234e52; line-height: 1.5;\">"

/-- Fixed part of the user chat template after the message. -/
def userMsgSuf : String :=
  "</div>\n            </div>\n            "

/-- Fixed part of the assistant chat template before the message. -/
def aiMsgPre : String :=
  "\n            <div style=\"margin: 16px 0; padding: 16px; background: #f0f9ff; border-left: 4px solid #3b82f6; border-radius: 8px;\">\n                <div style=\"font-weight: bold; color: #1e40af; margin-bottom: 8px;\">🤖 AI Assistant:</div>\n                <div style=\"color: #1e3a8a; line-height: 1.6;\">"

/-- Fixed part of the assistant chat template after the message. -/
def aiMsgSuf : String :=
  "</div>\n            </div>\n            "

/-- `LLMHelper.format_chat_message` (src/llm_helper.py): user messages are
interpolated verbatim into the user template; assistant messages are
first passed through `format_markdown_to_html`. -/
def formatChatMessage (sender message : String) (isUser : Bool) : String :=
  if isUser then
    userMsgPre ++ sender ++ userMsgMid ++ message ++ userMsgSuf
  else
    aiMsgPre ++ formatMarkdownToHtml message ++ aiMsgSuf

/-- `LLMHelper.build_chat_history_html` (src/llm_helper.py): concatenate
the per-entry markup in order, treating exactly the entries whose sender
is `"You"` as user messages. -/
def buildChatHistoryHtml (chatHistory : List (String × String)) : String :=
  chatHistory.foldl
    (fun acc e => acc ++ formatChatMessage e.1 e.2 (e.1 == "You")) ""

/-- `get_welcome_message` (src/styles.py); the heading decoration is the
(mojibake) character sequence present verbatim in the source file. -/
def welcomeMessage : String :=
  "\n    <div style=\"text-align: center; color: #718096; margin: 40px 20px;\">\n        <h3 style=\"color: #4a5568; margin-bottom: 12px;\">ðŸ‘‹ Welcome to your AI Data Assistant!</h3>\n        <p style=\"margin: 8px 0; line-height: 1.6;\">Load your data on the left, then ask questions like:</p>\n        <ul style=\"text-align: left; max-width: 400px; margin: 16px auto;\">\n            <li style=\"margin: 6px 0;\">\"What are the main trends in this data?\"</li>\n            <li style=\"margin: 6px 0;\">\"Convert this to JSON format\"</li>\n            <li style=\"margin: 6px 0;\">\"Show me correlations between columns\"</li>\n            <li style=\"margin: 6px 0;\">\"Summarize the key insights\"</li>\n        </ul>\n    </div>\n    "

/-- The UI state touched by the transcript operations of
`DataChatBotDemo` (src/main.py): the chat history list and the rendered
HTML of the chat area. -/
structure ChatState where
  chatHistory : List (String × String)
  chatArea : String

/-- `DataChatBotDemo._add_to_chat` (src/main.py): strip the message; if
the result is empty, do nothing; otherwise append `(sender, stripped)`
and re-render the whole history into the chat area. -/
def addToChat (st : ChatState) (sender message : String) : ChatState :=
  let m := stripS message
  if m = "" then st
  else
    { chatHistory := st.chatHistory ++ [(sender, m)],
      chatArea := buildChatHistoryHtml (st.chatHistory ++ [(sender, m)]) }

/-- `DataChatBotDemo.clear_chat_history` (src/main.py). -/
def clearChatHistory (_st : ChatState) : ChatState :=
  { chatHistory := [], chatArea := welcomeMessage }

/-- `DataChatBotDemo.get_chat_history` (src/main.py): a copy of the
history list. -/
def getChatHistory (st : ChatState) : List (String × String) :=
  st.chatHistory

/-- `LLMHelper.get_available_models` (src/llm_helper.py). -/
def getAvailableModels : List String :=
  ["gpt-4o-mini", "gpt-4o", "gpt-3.5-turbo"]

/-- The helper state touched by `set_model`: the configured model name. -/
structure LLMState where
  model : String

/-- `LLMHelper.set_model` (src/llm_helper.py): raise `ValueError` when the
requested model is not among the available models, otherwise store it.
An exception leaves the helper state unchanged, which the `Except` result
models by not producing a new state in the error case. -/
def setModel (st : LLMState) (m : String) : Except String LLMState :=
  if m ∈ getAvailableModels then Except.ok { st with model := m }
  else
    Except.error
      ("Model " ++ m
        ++ " not in available models: ['gpt-4o-mini', 'gpt-4o', 'gpt-3.5-turbo']")

/-- A line of the formatter output is a list-open or list-close marker. -/
def isMarker (l : List Char) : Bool :=
  l == ulOpenL || l == ulCloseL

/-- Alternating list markers: `n` open/close pairs in order. -/
def altN : Nat → List (List Char)
  | 0 => []
  | n + 1 => ulOpenL :: ulCloseL :: altN n

/-- The input carries none of the markdown tokens the formatter reacts
to: no `**` occurrence, no line starting with a header marker, no line
whose stripped form starts with `"- "`. -/
def noTokensB (t : List Char) : Bool :=
  !hasSS t &&
    (t.splitOn '\n').all (fun l =>
      !startsWith2 "### ".data l && !startsWith2 "## ".data l &&
        !startsWith2 "# ".data l && !startsWith2 "- ".data (stripL l))

/-- A transcript entry's message is non-empty and already stripped. -/
def entryOk (e : String × String) : Prop :=
  e.2 ≠ "" ∧ stripS e.2 = e.2

/-- Every entry of the chat history satisfies `entryOk`. -/
def historyInv (st : ChatState) : Prop :=
  ∀ e ∈ st.chatHistory, entryOk e

theorem findClose_nil : findClose [] = none := rfl

theorem findClose_one (c : Char) : findClose [c] = none := rfl

theorem findClose_pair (rest : List Char) :
    findClose ('*' :: '*' :: rest) = some ([], rest) := by
  simp [findClose]

theorem findClose_newline (b : Char) (rest : List Char)
    (hb : b ≠ '*') :
    findClose ('\n' :: b :: rest) = none := by
  simp [findClose, hb]

theorem findClose_cons {a b : Char} {rest : List Char}
    (ha : ¬(a = '*' ∧ b = '*')) (hn : a ≠ '\n') :
    findClose (a :: b :: rest) =
      (findClose (b :: rest)).map (fun p => (a :: p.1, p.2)) := by
  rw [findClose]
  simp [ha, hn]

theorem findClose_of_noStar {l : List Char} (h : ∀ c ∈ l, c ≠ '*') :
    findClose l = none := by
  induction l with
  | nil => rfl
  | cons a t ih =>
    match t with
    | [] => rfl
    | b :: r =>
      have ha : a ≠ '*' := h a (by simp)
      by_cases hn : a = '\n'
      · subst hn
        exact findClose_newline b r (h b (by simp))
      · rw [findClose_cons (by simp [ha]) hn,
          ih (fun c hc => h c (by simp [hc]))]
        rfl

theorem findClose_span {x : List Char} (s : List Char)
    (hx : ∀ c ∈ x, c ≠ '*' ∧ c ≠ '\n') :
    findClose (x ++ '*' :: '*' :: s) = some (x, s) := by
  induction x with
  | nil => exact findClose_pair s
  | cons c x' ih =>
    have hc := hx c (by simp)
    obtain ⟨b, rest, hbr⟩ : ∃ b rest, x' ++ '*' :: '*' :: s = b :: rest := by
      cases x' with
      | nil => exact ⟨'*', '*' :: s, rfl⟩
      | cons d x'' => exact ⟨d, x'' ++ '*' :: '*' :: s, rfl⟩
    rw [List.cons_append, hbr, findClose_cons (by simp [hc.1]) hc.2, ← hbr,
      ih (fun c hc => hx c (by simp [hc]))]
    rfl

theorem boldSub_nil : boldSub [] = [] := by
  simp [boldSub]

theorem boldSub_one (c : Char) : boldSub [c] = [c] := by
  simp [boldSub]

theorem boldSub_pair_some {rest cont rem : List Char}
    (h : findClose rest = some (cont, rem)) :
    boldSub ('*' :: '*' :: rest) =
      "<b>".data ++ cont ++ "</b>".data ++ boldSub rem := by
  rw [boldSub.eq_def]
  simp
  split
  · rename_i cont' rem' heq
    rw [h] at heq
    simp at heq
    rw [heq.1, heq.2]
  · rename_i heq
    rw [h] at heq
    simp at heq

theorem boldSub_pair_none {rest : List Char} (h : findClose rest = none) :
    boldSub ('*' :: '*' :: rest) = '*' :: '*' :: boldSub rest := by
  rw [boldSub.eq_def]
  simp
  split
  · rename_i cont' rem' heq
    rw [h] at heq
    simp at heq
  · rfl

theorem boldSub_cons2 {a b : Char} {rest : List Char}
    (h : ¬(a = '*' ∧ b = '*')) :
    boldSub (a :: b :: rest) = a :: boldSub (b :: rest) := by
  rw [boldSub.eq_def]
  simp [h]

theorem not_hasSS_of_noStar {l : List Char} (h : ∀ c ∈ l, c ≠ '*') :
    hasSS l = false := by
  induction l with
  | nil => rfl
  | cons a t ih =>
    match t with
    | [] => rfl
    | b :: r =>
      rw [hasSS]
      simp [h a (by simp), ih (fun c hc => h c (by simp [hc]))]

theorem boldSub_of_not_hasSS {l : List Char} (h : hasSS l = false) :
    boldSub l = l := by
  induction l with
  | nil => exact boldSub_nil
  | cons a t ih =>
    match t with
    | [] => exact boldSub_one a
    | b :: r =>
      rw [hasSS] at h
      simp only [Bool.or_eq_false_iff] at h
      rw [boldSub_cons2 (by simpa using h.1), ih h.2]

theorem boldSub_span {x : List Char} (s : List Char)
    (hx : ∀ c ∈ x, c ≠ '*' ∧ c ≠ '\n') :
    boldSub ('*' :: '*' :: (x ++ '*' :: '*' :: s)) =
      "<b>".data ++ x ++ "</b>".data ++ boldSub s :=
  boldSub_pair_some (findClose_span s hx)

theorem boldSub_append_noStar {p : List Char} (s : List Char)
    (hp : ∀ c ∈ p, c ≠ '*') :
    boldSub (p ++ s) = p ++ boldSub s := by
  induction p with
  | nil => rfl
  | cons c p' ih =>
    have hc : c ≠ '*' := hp c (by simp)
    rw [List.cons_append]
    match hq : p' ++ s with
    | [] =>
      obtain ⟨h1, h2⟩ := List.append_eq_nil.mp hq
      subst h1; subst h2
      simp [boldSub_one, boldSub_nil]
    | b :: rest =>
      rw [boldSub_cons2 (by simp [hc]), ← hq,
        ih (fun d hd => hp d (by simp [hd]))]
      rfl

theorem boldSub_lone {a b : List Char}
    (ha : ∀ c ∈ a, c ≠ '*') (hb : ∀ c ∈ b, c ≠ '*') :
    boldSub (a ++ '*' :: '*' :: b) = a ++ '*' :: '*' :: b := by
  rw [boldSub_append_noStar _ ha,
    boldSub_pair_none (findClose_of_noStar hb),
    boldSub_of_not_hasSS (not_hasSS_of_noStar hb)]

theorem stripL_eq_rdropWhile (l : List Char) :
    stripL l = List.rdropWhile isSpc (List.dropWhile isSpc l) := rfl

theorem dropWhile_eq_cons_not {α : Type} {p : α → Bool} {l : List α} {a : α}
    {t : List α} (h : List.dropWhile p l = a :: t) : p a = false := by
  induction l with
  | nil => simp at h
  | cons x xs ih =>
    rw [List.dropWhile_cons] at h
    split at h
    · exact ih h
    · rename_i hx
      cases h
      simpa using hx

theorem dropWhile_stripL (l : List Char) :
    List.dropWhile isSpc (stripL l) = stripL l := by
  rw [stripL_eq_rdropWhile]
  rcases hq : List.rdropWhile isSpc (List.dropWhile isSpc l) with _ | ⟨a, t⟩
  · simp
  · obtain ⟨t2, ht2⟩ :=
      List.rdropWhile_prefix isSpc (List.dropWhile isSpc l)
    rw [hq] at ht2
    have hdl : List.dropWhile isSpc l = a :: (t ++ t2) := by
      rw [← ht2]; rfl
    have ha := dropWhile_eq_cons_not hdl
    rw [List.dropWhile_cons_of_neg (by simp [ha])]

theorem stripL_idem (l : List Char) : stripL (stripL l) = stripL l := by
  rw [stripL_eq_rdropWhile (stripL l), dropWhile_stripL, stripL_eq_rdropWhile,
    List.rdropWhile_idempotent]

theorem stripL_eq_nil_iff {l : List Char} :
    stripL l = [] ↔ ∀ c ∈ l, isSpc c := by
  rw [stripL_eq_rdropWhile]
  constructor
  · intro h c hc
    have h2 := List.rdropWhile_eq_nil_iff.mp h
    have h3 : List.dropWhile isSpc l = [] := by
      rcases hq : List.dropWhile isSpc l with _ | ⟨a, t⟩
      · rfl
      · have hg := dropWhile_eq_cons_not hq
        have := h2 a (by rw [hq]; simp)
        rw [hg] at this
        simp at this
    exact List.dropWhile_eq_nil_iff.mp h3 c hc
  · intro h
    rw [List.dropWhile_eq_nil_iff.mpr h]
    rfl

theorem stripL_cons_head {c : Char} {l : List Char} (hc : isSpc c = false) :
    stripL (c :: l) = [] ∨ ∃ t, stripL (c :: l) = c :: t := by
  rw [stripL_eq_rdropWhile, List.dropWhile_cons_of_neg (by simp [hc])]
  rcases hq : List.rdropWhile isSpc (c :: l) with _ | ⟨a, t⟩
  · exact Or.inl rfl
  · obtain ⟨t2, ht2⟩ := List.rdropWhile_prefix isSpc (c :: l)
    rw [hq] at ht2
    have : a = c := by
      have := ht2
      simp at this
      exact this.1
    exact Or.inr ⟨t, by rw [this]⟩

theorem strip_no_dash_of_head {c : Char} (l : List Char)
    (hc : isSpc c = false) (hne : c ≠ '-') :
    startsWith2 "- ".data (stripL (c :: l)) = false := by
  rcases stripL_cons_head hc with h | ⟨t, h⟩ <;> rw [h] <;>
    simp [startsWith2, List.take] <;>
    intro hcontra <;> simp [hcontra] at hne

theorem headerSub_id {mark : List Char} {wrap : List Char → List Char}
    {t : List Char}
    (h : ∀ l ∈ t.splitOn '\n', startsWith2 mark l = false) :
    headerSub mark wrap t = t := by
  rw [headerSub, List.map_congr_left (g := id) (fun l hl => by simp [h l hl]),
    List.map_id]
  exact List.intercalate_splitOn t '\n'

theorem isMarker_liWrap (c : List Char) : isMarker (liWrap c) = false := by
  have h1 : liWrap c =
      '<' :: 'l' ::
        ("i style=\"margin: 4px 0; line-height: 1.4;\">".data
          ++ c ++ "</li>".data) := rfl
  rw [isMarker, h1]
  have h2 : ulOpenL = '<' :: 'u' ::
      "l style=\"margin: 8px 0; padding-left: 20px;\">".data := rfl
  have h3 : ulCloseL = '<' :: '/' :: "ul>".data := rfl
  rw [h2, h3]
  simp only [Bool.or_eq_false_iff, beq_eq_false_iff_ne]
  constructor
  · intro h
    injection h with _ h
    injection h with h _
    exact absurd h (by decide)
  · intro h
    injection h with _ h
    injection h with h _
    exact absurd h (by decide)

theorem isMarker_pWrap (l : List Char) : isMarker (pWrap l) = false := by
  have h1 : pWrap l =
      '<' :: 'p' ::
        (" style=\"margin: 8px 0; line-height: 1.5;\">".data
          ++ l ++ "</p>".data) := rfl
  rw [isMarker, h1]
  have h2 : ulOpenL = '<' :: 'u' ::
      "l style=\"margin: 8px 0; padding-left: 20px;\">".data := rfl
  have h3 : ulCloseL = '<' :: '/' :: "ul>".data := rfl
  rw [h2, h3]
  simp only [Bool.or_eq_false_iff, beq_eq_false_iff_ne]
  constructor
  · intro h
    injection h with _ h
    injection h with h _
    exact absurd h (by decide)
  · intro h
    injection h with _ h
    injection h with h _
    exact absurd h (by decide)

theorem isMarker_ulOpen : isMarker ulOpenL = true := by decide

theorem isMarker_ulClose : isMarker ulCloseL = true := by decide

theorem listScan_blank {line : List Char} (rest : List (List Char))
    (b : Bool) (h : stripL line = []) :
    listScan (line :: rest) b =
      (if b then [ulCloseL] else []) ++ listScan rest false := by
  simp [listScan, h, startsWith2]

theorem listScan_no_list {lines : List (List Char)}
    (h : ∀ l ∈ lines, startsWith2 "- ".data (stripL l) = false) :
    listScan lines false =
      (lines.filter (fun l => !(stripL l).isEmpty)).map pWrap := by
  induction lines with
  | nil => rfl
  | cons line rest ih =>
    simp only [listScan, h line (by simp), if_false, List.filter_cons,
      Bool.false_eq_true]
    by_cases he : (stripL line).isEmpty <;>
      simp [he, ih (fun l hl => h l (by simp [hl]))]

theorem altN_count_open (n : Nat) : (altN n).count ulOpenL = n := by
  induction n with
  | zero => rfl
  | succ n ih =>
    simp [altN, List.count_cons, ih,
      show ¬(ulCloseL = ulOpenL) by decide]

theorem altN_count_close (n : Nat) : (altN n).count ulCloseL = n := by
  induction n with
  | zero => rfl
  | succ n ih =>
    simp [altN, List.count_cons, ih,
      show (ulOpenL == ulCloseL) = false by decide]

theorem buildChatHistoryHtml_join (h : List (String × String)) :
    buildChatHistoryHtml h =
      String.join (h.map (fun e => formatChatMessage e.1 e.2 (e.1 == "You"))) := by
  simp [buildChatHistoryHtml, String.join, List.foldl_map]

theorem listScan_markers (lines : List (List Char)) :
    ∀ b : Bool, ∃ n,
      (listScan lines b).filter isMarker =
        if b then ulCloseL :: altN n else altN n := by
  induction lines with
  | nil =>
    intro b
    exact ⟨0, by cases b <;> simp [listScan, altN, isMarker]⟩
  | cons line rest ih =>
    intro b
    by_cases hd : startsWith2 "- ".data (stripL line) = true
    · obtain ⟨n, hn⟩ := ih true
      simp only [listScan, hd, if_true]
      cases b
      · refine ⟨n + 1, ?_⟩
        simp [List.filter_cons, isMarker_liWrap, isMarker_ulOpen, hn, altN]
      · refine ⟨n, ?_⟩
        simp [List.filter_cons, isMarker_liWrap, hn]
    · obtain ⟨n, hn⟩ := ih false
      simp only [listScan, hd, if_false]
      refine ⟨n, ?_⟩
      cases b <;> by_cases he : (stripL line).isEmpty <;>
        simp [he, List.filter_cons, List.filter_append, isMarker_pWrap,
          isMarker_ulClose, hn]

/-- C1 counterexample: on `"- a\n\n- b"` the two bullet lines do NOT end
up in the same list block — the blank line between them closes the first
list (the scan's else-branch closes an open list for every non-bullet
line, blank lines included), so the output carries two list-open
markers. -/
theorem c1_counterexample :
    formatMarkdownToHtml "- a\n\n- b" =
      ⟨List.intercalate ['\n']
        [ulOpenL, liWrap ['a'], ulCloseL, ulOpenL, liWrap ['b'], ulCloseL]⟩
    ∧ (formattedLines "- a\n\n- b".data).count ulOpenL = 2 := by
  have hb : boldSub "- a\n\n- b".data = "- a\n\n- b".data :=
    boldSub_of_not_hasSS (by decide)
  constructor
  · exact congrArg String.mk (by rw [mdFormatL, formattedLines, hb]; decide)
  · rw [formattedLines, hb]; decide

/-- C1 (amended): in the list-scan pass, a whitespace-only line produces
no paragraph or list-item block, but it does close an open list block
(so bullet lines separated by a blank line land in distinct list
blocks); a list still open when the last line has been scanned is closed
at end-of-text. -/
theorem c1_amended :
    (∀ (line : List Char) (rest : List (List Char)) (b : Bool),
      stripL line = [] →
        listScan (line :: rest) b =
          (if b then [ulCloseL] else []) ++ listScan rest false)
    ∧ listScan [] true = [ulCloseL]
    ∧ formattedLines "- a\n\n- b".data =
        [ulOpenL, liWrap ['a'], ulCloseL, ulOpenL, liWrap ['b'], ulCloseL] := by
  refine ⟨fun line rest b h => listScan_blank rest b h, rfl, ?_⟩
  rw [formattedLines, boldSub_of_not_hasSS (l := "- a\n\n- b".data) (by decide)]
  decide

/-- C1 witness: the amended blank-line behaviour at a concrete input. -/
theorem c1_amended_witness :
    stripL "  ".data = []
    ∧ listScan ["  ".data] true = [ulCloseL] ++ listScan [] false :=
  ⟨by decide, c1_amended.1 "  ".data [] true (by decide)⟩

/-- C2 counterexample: `"  hi"` has no markdown tokens, yet the formatter
wraps the ORIGINAL line, leading whitespace included, in the paragraph
block — the line is not trimmed as the claim states. -/
theorem c2_counterexample :
    formatMarkdownToHtml "  hi" =
      "<p style=\"margin: 8px 0; line-height: 1.5;\">  hi</p>"
    ∧ formatMarkdownToHtml "  hi" ≠
      "<p style=\"margin: 8px 0; line-height: 1.5;\">hi</p>" := by
  have hb : boldSub "  hi".data = "  hi".data :=
    boldSub_of_not_hasSS (by decide)
  have h1 : formatMarkdownToHtml "  hi" =
      "<p style=\"margin: 8px 0; line-height: 1.5;\">  hi</p>" :=
    congrArg String.mk (by rw [mdFormatL, formattedLines, hb]; decide)
  exact ⟨h1, by rw [h1]; decide⟩

/-- C2 (amended): for every input with no markdown tokens (no `**`
occurrence, no header-prefixed line, no line whose stripped form starts
with `"- "`), the formatter returns each line whose stripped form is
non-empty wrapped as a paragraph block around the ORIGINAL (untrimmed)
line, the blocks joined by newlines; whitespace-only lines are
dropped. -/
theorem c2_amended (s : String) (h : noTokensB s.data = true) :
    formatMarkdownToHtml s =
      ⟨List.intercalate ['\n']
        (((s.data.splitOn '\n').filter
          (fun l => !(stripL l).isEmpty)).map pWrap)⟩ := by
  simp only [noTokensB, Bool.and_eq_true, Bool.not_eq_true',
    List.all_eq_true] at h
  obtain ⟨hss, hlines⟩ := h
  have hb : boldSub s.data = s.data := boldSub_of_not_hasSS hss
  apply congrArg String.mk
  rw [mdFormatL, formattedLines, hb,
    headerSub_id (fun l hl => (hlines l hl).1.1.1),
    headerSub_id (fun l hl => (hlines l hl).1.1.2),
    headerSub_id (fun l hl => (hlines l hl).1.2),
    listScan_no_list (fun l hl => (hlines l hl).2)]

/-- C2 witness: the amended statement evaluated at `"  hi"`. -/
theorem c2_amended_witness :
    noTokensB "  hi".data = true
    ∧ formatMarkdownToHtml "  hi" =
      ⟨List.intercalate ['\n']
        ((((("  hi" : String)).data.splitOn '\n').filter
          (fun l => !(stripL l).isEmpty)).map pWrap)⟩ :=
  ⟨by decide, c2_amended "  hi" (by decide)⟩

/-- C3: `format_markdown_to_html "### Title\nbody"` yields the level-3
heading block containing `Title` (itself wrapped, like every non-list
non-empty line, in a paragraph block by the final scan) followed by the
paragraph block containing `body`; and a line produced by any of the
three header substitutions never has a stripped form starting with
`"- "`, so it is never additionally treated as a list item by the later
list-detection pass. -/
theorem c3_heading_then_paragraph :
    formatMarkdownToHtml "### Title\nbody" =
      ⟨List.intercalate ['\n']
        [pWrap (h3Wrap "Title".data), pWrap "body".data]⟩
    ∧ (∀ content : List Char,
        startsWith2 "- ".data (stripL (h3Wrap content)) = false)
    ∧ (∀ content : List Char,
        startsWith2 "- ".data (stripL (h2Wrap content)) = false)
    ∧ (∀ content : List Char,
        startsWith2 "- ".data (stripL (h1Wrap content)) = false) := by
  refine ⟨?_, ?_, ?_, ?_⟩
  · have hb : boldSub "### Title\nbody".data = "### Title\nbody".data :=
      boldSub_of_not_hasSS (by decide)
    exact congrArg String.mk (by rw [mdFormatL, formattedLines, hb]; decide)
  · intro content
    have hh : h3Wrap content =
        '<' :: ("h3 style=\"color: #2c5aa0; margin: 16px 0 8px 0; font-size: 14pt; font-weight: bold;\">".data
          ++ content ++ "</h3>".data) := rfl
    rw [hh]
    exact strip_no_dash_of_head _ (by decide) (by decide)
  · intro content
    have hh : h2Wrap content =
        '<' :: ("h2 style=\"color: #1e4176; margin: 18px 0 10px 0; font-size: 16pt; font-weight: bold;\">".data
          ++ content ++ "</h2>".data) := rfl
    rw [hh]
    exact strip_no_dash_of_head _ (by decide) (by decide)
  · intro content
    have hh : h1Wrap content =
        '<' :: ("h1 style=\"color: #1a365d; margin: 20px 0 12px 0; font-size: 18pt; font-weight: bold;\">".data
          ++ content ++ "</h1>".data) := rfl
    rw [hh]
    exact strip_no_dash_of_head _ (by decide) (by decide)

/-- C4: in the bold pass, scanning passes star-free text through
unchanged; every `**X**` span (star- and newline-free `X`) is replaced
by the emphasis-wrapped `X`; an input whose single `**` has no closing
pair is left unchanged; `"**a**b**"` shows the match is non-greedy (the
first closing `**` ends the span, the trailing lone `**` survives); and
`"****"` produces an empty emphasis element. -/
theorem c4_bold_spans :
    (∀ p s : List Char, (∀ c ∈ p, c ≠ '*') →
      boldSub (p ++ s) = p ++ boldSub s)
    ∧ (∀ x s : List Char, (∀ c ∈ x, c ≠ '*' ∧ c ≠ '\n') →
        boldSub ('*' :: '*' :: (x ++ '*' :: '*' :: s)) =
          "<b>".data ++ x ++ "</b>".data ++ boldSub s)
    ∧ (∀ a b : List Char, (∀ c ∈ a, c ≠ '*') → (∀ c ∈ b, c ≠ '*') →
        boldSub (a ++ '*' :: '*' :: b) = a ++ '*' :: '*' :: b)
    ∧ boldSub "**a**b**".data = "<b>a</b>b**".data
    ∧ boldSub "****".data = "<b></b>".data := by
  refine ⟨fun p s hp => boldSub_append_noStar s hp,
    fun x s hx => boldSub_span s hx,
    fun a b ha hb => boldSub_lone ha hb, ?_, ?_⟩
  · have h1 : boldSub ('*' :: '*' :: (['a'] ++ '*' :: '*' :: "b**".data)) =
        "<b>".data ++ ['a'] ++ "</b>".data ++ boldSub "b**".data :=
      boldSub_span _ (by decide)
    have h2 : boldSub "b**".data =
        'b' :: boldSub ('*' :: '*' :: ([] : List Char)) :=
      boldSub_cons2 (by decide)
    have h3 : boldSub ('*' :: '*' :: ([] : List Char)) =
        '*' :: '*' :: boldSub [] :=
      boldSub_pair_none findClose_nil
    show boldSub ('*' :: '*' :: (['a'] ++ '*' :: '*' :: "b**".data)) = _
    rw [h1, h2, h3, boldSub_nil]
    decide
  · have h1 : boldSub
        ('*' :: '*' :: (([] : List Char) ++ '*' :: '*' :: ([] : List Char))) =
        "<b>".data ++ [] ++ "</b>".data ++ boldSub [] :=
      boldSub_span _ (by decide)
    show boldSub
      ('*' :: '*' :: (([] : List Char) ++ '*' :: '*' :: ([] : List Char))) = _
    rw [h1, boldSub_nil]
    decide

/-- C4 witness: the three universally quantified parts of
`c4_bold_spans` discharged at concrete inputs. -/
theorem c4_bold_spans_witness :
    boldSub ("xy".data ++ "**z**".data) = "xy".data ++ boldSub "**z**".data
    ∧ boldSub ('*' :: '*' :: ("ab".data ++ '*' :: '*' :: "t".data)) =
        "<b>".data ++ "ab".data ++ "</b>".data ++ boldSub "t".data
    ∧ boldSub ("q".data ++ '*' :: '*' :: "r".data) =
        "q".data ++ '*' :: '*' :: "r".data :=
  ⟨c4_bold_spans.1 "xy".data "**z**".data (by decide),
   c4_bold_spans.2.1 "ab".data "t".data (by decide),
   c4_bold_spans.2.2.1 "q".data "r".data (by decide) (by decide)⟩

/-- C5: rendering wraps a user entry in the fixed user template with the
message text passed through verbatim (no markdown pass), while an
assistant entry's message goes through `format_markdown_to_html` before
being wrapped; `build_chat_history_html` dispatches on `sender == "You"`
per entry, and on a transcript holding `"# note"` for both senders the
user copy stays literal while the assistant copy becomes a heading
block. -/
theorem c5_render_dispatch :
    (∀ sender message : String,
      formatChatMessage sender message true =
        userMsgPre ++ sender ++ userMsgMid ++ message ++ userMsgSuf)
    ∧ (∀ sender message : String,
      formatChatMessage sender message false =
        aiMsgPre ++ formatMarkdownToHtml message ++ aiMsgSuf)
    ∧ (∀ h : List (String × String),
        buildChatHistoryHtml h =
          String.join
            (h.map (fun e => formatChatMessage e.1 e.2 (e.1 == "You"))))
    ∧ buildChatHistoryHtml [("You", "# note"), ("AI", "# note")] =
        "" ++ (userMsgPre ++ "You" ++ userMsgMid ++ "# note" ++ userMsgSuf)
          ++ (aiMsgPre
              ++ ⟨List.intercalate ['\n'] [pWrap (h1Wrap "note".data)]⟩
              ++ aiMsgSuf) := by
  refine ⟨fun s m => rfl, fun s m => rfl, buildChatHistoryHtml_join, ?_⟩
  have hb : boldSub "# note".data = "# note".data :=
    boldSub_of_not_hasSS (by decide)
  have hf : formatMarkdownToHtml "# note" =
      ⟨List.intercalate ['\n'] [pWrap (h1Wrap "note".data)]⟩ :=
    congrArg String.mk (by rw [mdFormatL, formattedLines, hb]; decide)
  show "" ++ formatChatMessage "You" "# note" (("You" : String) == "You")
      ++ formatChatMessage "AI" "# note" (("AI" : String) == "You") = _
  rw [show (("You" : String) == "You") = true from rfl,
    show (("AI" : String) == "You") = false from rfl]
  simp only [formatChatMessage, if_true, if_false, Bool.false_eq_true]
  rw [hf]

/-- C6: appending a message that strips to empty leaves the transcript
length unchanged; otherwise exactly the stripped entry is appended at
the end; appending `("You","hi")` then `("AI","hello")` to an empty
transcript makes the snapshot `[("You","hi"), ("AI","hello")]` in that
order. -/
theorem c6_append :
    (∀ (st : ChatState) (sender message : String), stripS message = "" →
      (getChatHistory (addToChat st sender message)).length =
        (getChatHistory st).length)
    ∧ (∀ (st : ChatState) (sender message : String), stripS message ≠ "" →
      getChatHistory (addToChat st sender message) =
        getChatHistory st ++ [(sender, stripS message)])
    ∧ getChatHistory
        (addToChat (addToChat ⟨[], welcomeMessage⟩ "You" "hi") "AI" "hello") =
      [("You", "hi"), ("AI", "hello")] := by
  refine ⟨?_, ?_, ?_⟩
  · intro st sender message h
    simp [addToChat, getChatHistory, h]
  · intro st sender message h
    simp [addToChat, getChatHistory, h]
  · have e1 : stripS "hi" = "hi" := rfl
    have e2 : stripS "hello" = "hello" := rfl
    simp [addToChat, getChatHistory, e1, e2]

/-- C6 witness: both quantified parts discharged at concrete inputs. -/
theorem c6_append_witness :
    (getChatHistory (addToChat ⟨[], ""⟩ "You" "   ")).length =
        (getChatHistory ⟨[], ""⟩).length
    ∧ getChatHistory (addToChat ⟨[], ""⟩ "AI" " x ") =
        getChatHistory ⟨[], ""⟩ ++ [("AI", stripS " x ")] :=
  ⟨c6_append.1 ⟨[], ""⟩ "You" "   " (by decide),
   c6_append.2.1 ⟨[], ""⟩ "AI" " x " (by decide)⟩

/-- C7: after any state (so after any sequence of appends), clearing
resets the snapshot to the empty sequence and sets the rendered chat
area to the fixed welcome markup, which is not the empty string. -/
theorem c7_clear (st : ChatState) :
    getChatHistory (clearChatHistory st) = []
    ∧ (clearChatHistory st).chatArea = welcomeMessage
    ∧ welcomeMessage ≠ "" :=
  ⟨rfl, rfl, by decide⟩

/-- C8: `set_model` succeeds exactly on the three available model names,
storing the requested name as the configured model, and raises (modelled
by the `Except.error` branch, which produces no new state, so the
caller's model field is untouched) exactly on every other name. -/
theorem c8_set_model (st : LLMState) (m : String) :
    (m ∈ getAvailableModels → setModel st m = Except.ok ⟨m⟩)
    ∧ (m ∉ getAvailableModels →
      setModel st m = Except.error
        ("Model " ++ m
          ++ " not in available models: ['gpt-4o-mini', 'gpt-4o', 'gpt-3.5-turbo']")) := by
  constructor
  · intro h
    rw [setModel, if_pos h]
  · intro h
    rw [setModel, if_neg h]

/-- C8 witness: one accepted and one rejected model name. -/
theorem c8_set_model_witness :
    setModel ⟨"gpt-4o-mini"⟩ "gpt-4o" = Except.ok ⟨"gpt-4o"⟩
    ∧ setModel ⟨"gpt-4o-mini"⟩ "gpt-5" = Except.error
        "Model gpt-5 not in available models: ['gpt-4o-mini', 'gpt-4o', 'gpt-3.5-turbo']" :=
  ⟨(c8_set_model ⟨"gpt-4o-mini"⟩ "gpt-4o").1 (by decide),
   (c8_set_model ⟨"gpt-4o-mini"⟩ "gpt-5").2 (by decide)⟩

/-- C9: every transcript entry's message is non-empty and equal to its
own strip; the invariant holds in the initial state and is preserved by
append (which stores the stripped message and rejects blank ones) and by
clear (which empties the history). -/
theorem c9_history_invariant :
    historyInv ⟨[], welcomeMessage⟩
    ∧ (∀ (st : ChatState) (sender message : String),
        historyInv st → historyInv (addToChat st sender message))
    ∧ (∀ st : ChatState, historyInv (clearChatHistory st)) := by
  refine ⟨?_, ?_, ?_⟩
  · intro e he
    simp at he
  · intro st sender message h
    by_cases hm : stripS message = ""
    · have hst : addToChat st sender message = st := by
        rw [addToChat]
        simp [hm]
      rw [hst]
      exact h
    · have hst : addToChat st sender message =
          { chatHistory := st.chatHistory ++ [(sender, stripS message)],
            chatArea :=
              buildChatHistoryHtml
                (st.chatHistory ++ [(sender, stripS message)]) } := by
        rw [addToChat]
        simp [hm]
      intro e he
      rw [hst] at he
      simp only [historyInv] at he
      simp at he
      rcases he with he | he
      · exact h e he
      · rw [he]
        refine ⟨hm, ?_⟩
        exact congrArg String.mk (stripL_idem message.data)
  · intro st e he
    simp [clearChatHistory] at he

/-- C9 witness: the invariant after one concrete append to the initial
state. -/
theorem c9_history_invariant_witness :
    historyInv (addToChat ⟨[], welcomeMessage⟩ "You" " hi ") :=
  c9_history_invariant.2.1 ⟨[], welcomeMessage⟩ "You" " hi "
    c9_history_invariant.1

/-- C10: for every input, the formatter's output lines contain as many
list-open as list-close markers, arranged as strictly alternating
open/close pairs, so each open marker precedes its matching close and no
list block is left unclosed. -/
theorem c10_markers_balanced (t : List Char) :
    ∃ n, (formattedLines t).filter isMarker = altN n
      ∧ (formattedLines t).count ulOpenL = n
      ∧ (formattedLines t).count ulCloseL = n := by
  obtain ⟨n, hn⟩ := listScan_markers
    ((headerSub "# ".data h1Wrap
      (headerSub "## ".data h2Wrap
        (headerSub "### ".data h3Wrap (boldSub t)))).splitOn '\n') false
  simp only [if_false, Bool.false_eq_true] at hn
  have hf : (formattedLines t).filter isMarker = altN n := hn
  refine ⟨n, hf, ?_, ?_⟩
  · rw [← List.count_filter (p := isMarker) (a := ulOpenL)
      (l := formattedLines t) (by decide), hf]
    exact altN_count_open n
  · rw [← List.count_filter (p := isMarker) (a := ulCloseL)
      (l := formattedLines t) (by decide), hf]
    exact altN_count_close n
